import Mathlib

/-!
# Verification of the `whosthere` discovery/probe core

Shallow embedding of the probe, fingerprint, Wake-on-LAN, NBSTAT and
interface-listing code of the repository, together with theorems checking
the natural-language specification against it.

Conventions of the embedding:
* Go byte slices (`[]byte`) are `List Nat` with every element `< 256`;
  reads `data[i]` become `List.getD data i 0` and are always guarded by the
  same bounds checks the source performs.
* Go strings are Lean `String`s; `strings.Contains` becomes an infix test
  on the character lists; `strings.ToLower` is modelled on ASCII letters
  (all keyword tables of the source are ASCII).
* Go maps (`map[int]string`, `map[string]string`) are association lists,
  carrying the enumeration order that a concrete Go map iteration would
  produce.  Two lists with the same entries in different orders represent
  the same Go map value.
* Network effects (UDP send, TCP dial) are represented by returning the
  datagram/address that would be sent, or by oracle functions giving the
  bytes the network would answer with.
-/

namespace Whosthere

/-- ASCII lowering of one character, as `strings.ToLower` acts on the
ASCII subset (every keyword table in the source is ASCII). -/
def lowerChar (c : Char) : Char :=
  if 'A' ≤ c ∧ c ≤ 'Z' then Char.ofNat (c.toNat + 32) else c

/-- `strings.ToLower` on ASCII text. -/
def lowerStr (s : String) : String :=
  String.mk (s.toList.map lowerChar)

/-- `sub` occurs as a contiguous run inside `l`. -/
def occursIn (sub : List Char) : List Char → Bool
  | [] => sub.isEmpty
  | c :: rest => sub.isPrefixOf (c :: rest) || occursIn sub rest

/-- `strings.Contains s sub`: `sub` occurs as a contiguous substring of `s`. -/
def containsStr (s sub : String) : Bool :=
  occursIn sub.toList s.toList

/-- First non-empty string of a list, or `""` — the selection discipline the
spec describes for the layered classifiers ("first non-empty wins"). -/
def firstNonEmpty (l : List String) : String :=
  match l.find? (fun s => s ≠ "") with
  | some s => s
  | none => ""

/-- Bytes of an ASCII string (used to compare byte-level parser output
against string literals). -/
def strBytes (s : String) : List Nat :=
  s.toList.map Char.toNat

/-! ## Wake-on-LAN (`SendWoL`, `BroadcastAddr` — src/unnamed/part_003) -/

/-- `BroadcastAddr`: `broadcast[i] = ip[i] | ^mask[i]` over the 4 bytes of
the IPv4 address (`^m` on a `byte` is `m ^^^ 255`).  `none` models the
`nil` return when `ipNet.IP.To4()` fails (non-4-byte address). -/
def BroadcastAddr (ip mask : List Nat) : Option (List Nat) :=
  if ip.length = 4 then
    some (List.zipWith (fun a m => a ||| (m ^^^ 255)) ip mask)
  else none

lemma byte_or_not_or (a m : Nat) (ha : a < 256) (hm : m < 256) :
    (a ||| (m ^^^ 255)) ||| m = 255 := by
  apply Nat.eq_of_testBit_eq
  intro i
  simp only [Nat.testBit_lor, Nat.testBit_xor]
  rcases lt_or_le i 8 with h8 | h8
  · have h255 : Nat.testBit 255 i = true := by
      interval_cases i <;> decide
    rw [h255]
    cases hmi : Nat.testBit m i <;> simp
  · have h255 : Nat.testBit 255 i = false := by
      apply Nat.testBit_lt_two_pow
      calc (255 : Nat) < 2 ^ 8 := by norm_num
      _ ≤ 2 ^ i := Nat.pow_le_pow_right (by norm_num) h8
    have hai : Nat.testBit a i = false := by
      apply Nat.testBit_lt_two_pow
      exact lt_of_lt_of_le ha (by
        calc (256 : Nat) = 2 ^ 8 := by norm_num
        _ ≤ 2 ^ i := Nat.pow_le_pow_right (by norm_num) h8)
    have hmi : Nat.testBit m i = false := by
      apply Nat.testBit_lt_two_pow
      exact lt_of_lt_of_le hm (by
        calc (256 : Nat) = 2 ^ 8 := by norm_num
        _ ≤ 2 ^ i := Nat.pow_le_pow_right (by norm_num) h8)
    simp [h255, hai, hmi]

/-- C2: for every 4-byte IPv4 address and 4-byte mask, `BroadcastAddr`
returns exactly the per-byte `ip[i] | ^mask[i]` address, that address OR
the mask is all-ones, and the broadcast of `192.168.1.37/24` is
`192.168.1.255`. -/
theorem C2_broadcast_addr :
    (∀ ip mask : List Nat, ip.length = 4 → mask.length = 4 →
      (∀ b ∈ ip, b < 256) → (∀ b ∈ mask, b < 256) →
      BroadcastAddr ip mask =
        some (List.zipWith (fun a m => a ||| (m ^^^ 255)) ip mask) ∧
      ∀ bc, BroadcastAddr ip mask = some bc →
        List.zipWith (fun b m => b ||| m) bc mask = [255, 255, 255, 255]) ∧
    BroadcastAddr [192, 168, 1, 37] [255, 255, 255, 0] =
      some [192, 168, 1, 255] := by
  constructor
  · intro ip mask hip hmask hipb hmaskb
    constructor
    · simp [BroadcastAddr, hip]
    · intro bc hbc
      simp only [BroadcastAddr, hip, if_pos, Option.some.injEq] at hbc
      subst hbc
      match ip, hip, mask, hmask with
      | [a0, a1, a2, a3], _, [m0, m1, m2, m3], _ =>
        simp only [List.zipWith]
        have h0 := byte_or_not_or a0 m0 (hipb a0 (by simp)) (hmaskb m0 (by simp))
        have h1 := byte_or_not_or a1 m1 (hipb a1 (by simp)) (hmaskb m1 (by simp))
        have h2 := byte_or_not_or a2 m2 (hipb a2 (by simp)) (hmaskb m2 (by simp))
        have h3 := byte_or_not_or a3 m3 (hipb a3 (by simp)) (hmaskb m3 (by simp))
        rw [h0, h1, h2, h3]
  · decide

/-! ### `net.ParseMAC` (Go standard library, called by `SendWoL`) -/

/-- Value of a hexadecimal digit character (`xtoi` digit step). -/
def hexVal (c : Char) : Option Nat :=
  if '0' ≤ c ∧ c ≤ '9' then some (c.toNat - '0'.toNat)
  else if 'a' ≤ c ∧ c ≤ 'f' then some (c.toNat - 'a'.toNat + 10)
  else if 'A' ≤ c ∧ c ≤ 'F' then some (c.toNat - 'A'.toNat + 10)
  else none

/-- `xtoi2 s e`: parse the first two characters of `s` as a hex byte,
rejecting when a third character exists and differs from `e`. -/
def xtoi2 (l : List Char) (e : Char) : Option Nat :=
  if l.length > 2 ∧ l.getD 2 ' ' ≠ e then none
  else
    match l with
    | c1 :: c2 :: _ =>
      match hexVal c1, hexVal c2 with
      | some hi, some lo => some (hi * 16 + lo)
      | _, _ => none
    | _ => none

/-- The `:`/`-` branch loop of `ParseMAC`: `n` bytes, advancing 3 chars each. -/
def parseColonGroups (l : List Char) (sep : Char) : Nat → Option (List Nat)
  | 0 => some []
  | n + 1 =>
    match xtoi2 l sep with
    | none => none
    | some b =>
      match parseColonGroups (l.drop 3) sep n with
      | none => none
      | some rest => some (b :: rest)

/-- The `.` branch loop of `ParseMAC`: `n` byte pairs, advancing 5 chars each. -/
def parseDotGroups (l : List Char) (sep : Char) : Nat → Option (List Nat)
  | 0 => some []
  | n + 1 =>
    match xtoi2 (l.take 2) (Char.ofNat 0) with
    | none => none
    | some b1 =>
      match xtoi2 (l.drop 2) sep with
      | none => none
      | some b2 =>
        match parseDotGroups (l.drop 5) sep n with
        | none => none
        | some rest => some (b1 :: b2 :: rest)

/-- `net.ParseMAC`: accepts `xx:xx:...`, `xx-xx-...` (6, 8 or 20 bytes) and
`xxxx.xxxx....` (same byte counts); `none` models the error return. -/
def ParseMAC (s : String) : Option (List Nat) :=
  let l := s.toList
  if l.length < 14 then none
  else if l.getD 2 ' ' = ':' ∨ l.getD 2 ' ' = '-' then
    if (l.length + 1) % 3 ≠ 0 then none
    else
      let n := (l.length + 1) / 3
      if ¬(n = 6 ∨ n = 8 ∨ n = 20) then none
      else parseColonGroups l (l.getD 2 ' ') n
  else if l.getD 4 ' ' = '.' then
    if (l.length + 1) % 5 ≠ 0 then none
    else
      let n := 2 * ((l.length + 1) / 5)
      if ¬(n = 6 ∨ n = 8 ∨ n = 20) then none
      else parseDotGroups l '.' (n / 2)
  else none

/-! ### `SendWoL` (src/unnamed/part_003) -/

/-- Go `copy(dst[i:], src)`: overwrite `min (len src) (len dst - i)` elements
of `dst` starting at `i`. -/
def goCopy (dst : List Nat) (i : Nat) (src : List Nat) : List Nat :=
  let copied := min src.length (dst.length - i)
  dst.take i ++ src.take copied ++ dst.drop (i + copied)

/-- The magic-packet construction of `SendWoL`: a 102-byte array, bytes
0..5 set to `0xFF`, then `copy(packet[6+i*6:], mac)` for `i = 0..15`. -/
def buildMagicPacket (mac : List Nat) : List Nat :=
  let packet := List.replicate 102 0
  let packet := (List.range 6).foldl (fun p i => p.set i 255) packet
  (List.range 16).foldl (fun p i => goCopy p (6 + i * 6) mac) packet

/-- `SendWoL`: parse the MAC, require 6 bytes, build the magic packet and
UDP-send it to `broadcastAddr:9`.  The network send is modelled by
returning the destination and the datagram; dial/write failures are I/O
outcomes outside the embedding. -/
def SendWoL (macStr broadcastAddr : String) :
    Except String (String × Nat × List Nat) :=
  match ParseMAC macStr with
  | none => .error ("invalid MAC address " ++ macStr)
  | some mac =>
    if mac.length ≠ 6 then .error "MAC address must be 6 bytes"
    else .ok (broadcastAddr, 9, buildMagicPacket mac)

lemma foldl_goCopy_eq (mac : List Nat) (h : mac.length = 6)
    (base : List Nat) (hb : base.length = 102) :
    ∀ k, k ≤ 16 →
      (List.range k).foldl (fun p i => goCopy p (6 + i * 6) mac) base =
        base.take 6 ++ (List.replicate k mac).flatten ++
          base.drop (6 + 6 * k) := by
  intro k
  induction k with
  | zero =>
    intro _
    simp only [List.range_zero, List.foldl_nil, List.replicate_zero,
      List.flatten_nil, List.append_nil, Nat.mul_zero, Nat.add_zero]
    exact (List.take_append_drop 6 base).symm
  | succ k ih =>
    intro hk
    rw [List.range_succ, List.foldl_append, ih (by omega)]
    simp only [List.foldl_cons, List.foldl_nil]
    have hF : ((List.replicate k mac).flatten).length = 6 * k := by
      simp [List.length_flatten, List.map_replicate, h, List.sum_replicate,
        Nat.mul_comm]
    have hA : (base.take 6).length = 6 := by
      simp [List.length_take, hb]
    have hAF : ((base.take 6 ++ (List.replicate k mac).flatten)).length
        = 6 + 6 * k := by
      simp [List.length_append, hA, hF]
    have hplen : ((base.take 6 ++ (List.replicate k mac).flatten ++
        base.drop (6 + 6 * k))).length = 102 := by
      simp only [List.length_append, hA, hF, List.length_drop, hb]
      omega
    show goCopy _ (6 + k * 6) mac = _
    rw [goCopy]
    have hcopied :
        min mac.length ((base.take 6 ++ (List.replicate k mac).flatten ++
          base.drop (6 + 6 * k)).length - (6 + k * 6)) = 6 := by
      rw [hplen, h]
      rw [Nat.min_eq_left (by omega)]
    rw [hcopied]
    rw [List.append_assoc (base.take 6)]
    have htake : (base.take 6 ++ ((List.replicate k mac).flatten ++
        base.drop (6 + 6 * k))).take (6 + k * 6) =
        base.take 6 ++ (List.replicate k mac).flatten := by
      rw [← List.append_assoc, List.take_left' (by rw [hAF]; omega)]
    have hmt : mac.take 6 = mac := List.take_of_length_le (by omega)
    rw [htake, hmt]
    have hdrop : (base.take 6 ++ ((List.replicate k mac).flatten ++
        base.drop (6 + 6 * k))).drop (6 + k * 6 + 6) =
        base.drop (6 + 6 * (k + 1)) := by
      rw [← List.append_assoc]
      have h1 : 6 + k * 6 + 6 =
          (base.take 6 ++ (List.replicate k mac).flatten).length + 6 := by
        rw [hAF]; omega
      rw [h1, List.drop_append, List.drop_drop]
      congr 1
      try omega
    rw [hdrop, List.replicate_succ', List.flatten_append]
    simp [List.append_assoc]

lemma buildMagicPacket_eq (mac : List Nat) (h : mac.length = 6) :
    buildMagicPacket mac =
      List.replicate 6 255 ++ (List.replicate 16 mac).flatten := by
  rw [buildMagicPacket]
  have hb : ((List.range 6).foldl (fun p i => p.set i 255)
      (List.replicate 102 0)).length = 102 := by decide
  rw [foldl_goCopy_eq mac h _ hb 16 (by omega)]
  have ht : ((List.range 6).foldl (fun p i => p.set i 255)
      (List.replicate 102 0)).take 6 = List.replicate 6 255 := by decide
  have hd : ((List.range 6).foldl (fun p i => p.set i 255)
      (List.replicate 102 0)).drop (6 + 6 * 16) = [] := by decide
  rw [ht, hd, List.append_nil]

/-- C1: whenever the MAC string parses to 6 bytes, `SendWoL` sends to
`broadcastAddr:9` a 102-byte payload whose first 6 bytes are `0xFF` and
whose bytes `[6+6*i .. 6+6*i+6)` equal the MAC for each `i < 16`; whenever
the string does not parse to a 6-byte MAC, it returns an error. -/
theorem C1_send_wol :
    (∀ s b mac, ParseMAC s = some mac → mac.length = 6 →
      SendWoL s b = .ok (b, 9, buildMagicPacket mac) ∧
      (buildMagicPacket mac).length = 102 ∧
      (buildMagicPacket mac).take 6 = List.replicate 6 255 ∧
      ∀ i < 16, ((buildMagicPacket mac).drop (6 + 6 * i)).take 6 = mac) ∧
    (∀ s b, ParseMAC s = none ∨
        (∃ mac, ParseMAC s = some mac ∧ mac.length ≠ 6) →
      ∃ e, SendWoL s b = .error e) := by
  constructor
  · intro s b mac hp hlen
    refine ⟨?_, ?_, ?_, ?_⟩
    · simp [SendWoL, hp, hlen]
    · rw [buildMagicPacket_eq mac hlen]
      simp [List.length_flatten, List.map_replicate, hlen, List.sum_replicate]
    · rw [buildMagicPacket_eq mac hlen]
      rw [List.take_left' (by simp)]
    · intro i hi
      match mac, hlen with
      | [b0, b1, b2, b3, b4, b5], _ =>
        rw [buildMagicPacket_eq _ (by rfl)]
        interval_cases i <;> rfl
  · rintro s b (hnone | ⟨mac, hsome, hlen⟩)
    · exact ⟨"invalid MAC address " ++ s, by simp [SendWoL, hnone]⟩
    · exact ⟨"MAC address must be 6 bytes", by simp [SendWoL, hsome, hlen]⟩

/-- Witness for C1: the MAC `aa:bb:cc:dd:ee:ff` parses and is sent as a
102-byte magic packet; the string `"nonsense"` is rejected. -/
theorem C1_send_wol_witness :
    (SendWoL "aa:bb:cc:dd:ee:ff" "192.168.1.255" =
      .ok ("192.168.1.255", 9,
        buildMagicPacket [170, 187, 204, 221, 238, 255]) ∧
     (buildMagicPacket [170, 187, 204, 221, 238, 255]).length = 102) ∧
    ∃ e, SendWoL "nonsense" "192.168.1.255" = .error e := by
  have h1 := C1_send_wol.1 "aa:bb:cc:dd:ee:ff" "192.168.1.255"
    [170, 187, 204, 221, 238, 255] (by decide) (by decide)
  have h2 := C1_send_wol.2 "nonsense" "192.168.1.255" (Or.inl (by decide))
  exact ⟨⟨h1.1, h1.2.1⟩, h2⟩

/-- Witness for C2 at a concrete network: `10.0.0.7` with mask `/16`. -/
theorem C2_broadcast_addr_witness :
    BroadcastAddr [10, 0, 0, 7] [255, 255, 0, 0] =
      some (List.zipWith (fun a m => a ||| (m ^^^ 255)) [10, 0, 0, 7]
        [255, 255, 0, 0]) ∧
    List.zipWith (fun b m => b ||| m)
      (List.zipWith (fun a m => a ||| (m ^^^ 255)) [10, 0, 0, 7]
        [255, 255, 0, 0]) [255, 255, 0, 0] = [255, 255, 255, 255] := by
  have h := C2_broadcast_addr.1 [10, 0, 0, 7] [255, 255, 0, 0]
    (by decide) (by decide) (by decide) (by decide)
  exact ⟨h.1, h.2 _ h.1⟩

/-! ## Banner sanitization (`sanitizeBanner` — src/unnamed/part_001) -/

/-- ASCII white-space characters trimmed by `strings.TrimSpace` (the
Unicode cases cannot survive the printable-ASCII filter that precedes the
trim in `sanitizeBanner`). -/
def isGoSpace (c : Char) : Bool :=
  c = ' ' ∨ c = '\t' ∨ c = '\n' ∨ c = '\r' ∨ c.toNat = 11 ∨ c.toNat = 12

/-- `strings.TrimSpace` on a character list. -/
def trimSpaceChars (l : List Char) : List Char :=
  ((l.dropWhile isGoSpace).reverse.dropWhile isGoSpace).reverse

/-- The printable-ASCII test `32 <= r && r < 127` of `sanitizeBanner`. -/
def printableChar (c : Char) : Bool :=
  32 ≤ c.toNat ∧ c.toNat < 127

/-- Value held by `result` in `sanitizeBanner` just before the truncation
check: cut at the first `\r` or `\n`, drop non-printable characters, trim
surrounding white space. -/
def sanitizePre (raw : String) : List Char :=
  let l := raw.toList
  let cut := match l.findIdx? (fun c => c = '\r' ∨ c = '\n') with
    | some i => l.take i
    | none => l
  trimSpaceChars (cut.filter printableChar)

/-- `sanitizeBanner`: `result[:117] + "..."` when `len(result) > 120`
(the result is all-ASCII, so its Go byte length is its character count). -/
def sanitizeBanner (raw : String) : String :=
  let result := sanitizePre raw
  if result.length > 120 then String.mk (result.take 117 ++ ['.', '.', '.'])
  else String.mk result

lemma mem_trimSpaceChars {c : Char} {l : List Char}
    (hc : c ∈ trimSpaceChars l) : c ∈ l := by
  rw [trimSpaceChars, List.mem_reverse] at hc
  have h1 := (List.dropWhile_sublist isGoSpace).subset hc
  rw [List.mem_reverse] at h1
  exact (List.dropWhile_sublist isGoSpace).subset h1

lemma mem_sanitizePre {c : Char} {raw : String} (hc : c ∈ sanitizePre raw) :
    printableChar c := by
  have h1 := mem_trimSpaceChars hc
  exact (List.mem_filter.mp h1).2

/-- Counterexample to C3 as stated: the raw banner `"..."` is not
truncated (its cleaned form has length 3 ≤ 120), yet the sanitized output
ends in `"..."`, so "ends in `...` iff truncated" fails right-to-left. -/
theorem C3_sanitize_cex :
    (sanitizePre "...").length ≤ 120 ∧
    (sanitizeBanner "...").toList.reverse.take 3 = ['.', '.', '.'] := by
  constructor <;> decide

/-- C3 (amended: the output ends in `"..."` *if* it was truncated; an
untruncated banner may also happen to end in three dots): the sanitizer
keeps only printable ASCII `0x20..0x7E`, never emits CR/LF, caps the
length at 120 characters, and appends `"..."` whenever the cleaned banner
exceeded 120 characters. -/
theorem C3_sanitize_props (raw : String) :
    (∀ c ∈ (sanitizeBanner raw).toList, 32 ≤ c.toNat ∧ c.toNat ≤ 126) ∧
    (∀ c ∈ (sanitizeBanner raw).toList, c ≠ '\r' ∧ c ≠ '\n') ∧
    (sanitizeBanner raw).toList.length ≤ 120 ∧
    ((sanitizePre raw).length > 120 →
      (sanitizeBanner raw).toList.reverse.take 3 = ['.', '.', '.']) := by
  have hmem : ∀ c ∈ (sanitizeBanner raw).toList, 32 ≤ c.toNat ∧ c.toNat ≤ 126 := by
    intro c hc
    rw [sanitizeBanner] at hc
    by_cases htr : (sanitizePre raw).length > 120
    · rw [if_pos htr] at hc
      have hc' : c ∈ (sanitizePre raw).take 117 ++ ['.', '.', '.'] := hc
      rcases List.mem_append.mp hc' with hl | hr
      · have := mem_sanitizePre ((List.take_sublist 117 _).subset hl)
        rw [printableChar] at this
        simp only [decide_eq_true_eq, Bool.and_eq_true] at this
        omega
      · have hd : c = '.' := by simpa using hr
        subst hd; decide
    · rw [if_neg htr] at hc
      have := mem_sanitizePre (hc : c ∈ sanitizePre raw)
      rw [printableChar] at this
      simp only [decide_eq_true_eq, Bool.and_eq_true] at this
      omega
  refine ⟨hmem, ?_, ?_, ?_⟩
  · intro c hc
    have h := hmem c hc
    constructor
    · intro heq; subst heq; simp at h
    · intro heq; subst heq; simp at h
  · rw [sanitizeBanner]
    by_cases htr : (sanitizePre raw).length > 120
    · rw [if_pos htr]
      show ((sanitizePre raw).take 117 ++ ['.', '.', '.']).length ≤ 120
      rw [List.length_append, List.length_take]
      simp only [List.length_cons, List.length_nil]
      omega
    · rw [if_neg htr]
      show (sanitizePre raw).length ≤ 120
      omega
  · intro htr
    rw [sanitizeBanner, if_pos htr]
    show ((sanitizePre raw).take 117 ++ ['.', '.', '.']).reverse.take 3 = _
    rw [List.reverse_append]
    rfl

set_option maxRecDepth 4000 in
/-- Witness for C3 (amended) at a 130-`'a'` banner, which is truncated and
so ends in `"..."`. -/
theorem C3_sanitize_props_witness :
    (∀ c ∈ (sanitizeBanner (String.mk (List.replicate 130 'a'))).toList,
      32 ≤ c.toNat ∧ c.toNat ≤ 126) ∧
    (sanitizePre (String.mk (List.replicate 130 'a'))).length > 120 ∧
    (sanitizeBanner (String.mk (List.replicate 130 'a'))).toList.reverse.take 3 =
      ['.', '.', '.'] := by
  have h := C3_sanitize_props (String.mk (List.replicate 130 'a'))
  have htr : (sanitizePre (String.mk (List.replicate 130 'a'))).length > 120 := by
    decide
  exact ⟨h.1, htr, h.2.2.2 htr⟩

/-! ## OS detection (`DetectOS` — src/internal/core/probe/os_detect.go)

Go maps become association lists carrying an enumeration order; the
network side of `osFromTTL`/`getTTL` becomes an oracle `getTTL : Int → Int`
giving the TTL observed when dialling a port (`-1`/`0` for failure). -/

def OSWindows : String := "Windows"
def OSLinux : String := "Linux"
def OSMacOS : String := "macOS"
def OSFreeBSD : String := "FreeBSD"
def OSAndroid : String := "Android"
def OSIOS : String := "iOS"
def OSUnknown : String := ""

/-- `flattenMap`: `k + " " + v` for each entry, joined by `" "`. -/
def flattenMap (m : List (String × String)) : String :=
  if m.isEmpty then ""
  else String.intercalate " " (m.map (fun kv => kv.1 ++ " " ++ kv.2))

/-- `flattenBanners`: the banner values joined by `" "`. -/
def flattenBanners (m : List (Int × String)) : String :=
  if m.isEmpty then ""
  else String.intercalate " " (m.map (fun kv => kv.2))

/-- The `linuxHints` table of `osFromSSHBanner`. -/
def linuxHints : List String :=
  ["ubuntu", "debian", "fedora", "centos", "rhel", "arch", "gentoo",
   "opensuse", "suse", "alpine", "kali", "mint", "manjaro", "raspbian",
   "raspberry", "armbian"]

/-- `osFromSSHBanner`: inspect the port-22 banner. -/
def osFromSSHBanner (banners : List (Int × String)) : String :=
  match banners.lookup 22 with
  | none => ""
  | some banner =>
    if banner = "" then ""
    else
      let b := lowerStr banner
      if linuxHints.any (fun hint => containsStr b hint) then OSLinux
      else if containsStr b "freebsd" then OSFreeBSD
      else if containsStr b "microsoft" ∨ containsStr b "windows" then OSWindows
      else if containsStr b "openssh" then OSLinux
      else ""

/-- `osFromHTTPServer`: inspect the HTTP `Server` header. -/
def osFromHTTPServer (server : String) : String :=
  if server = "" then ""
  else
    let s := lowerStr server
    if containsStr s "microsoft" ∨ containsStr s "iis" then OSWindows
    else if containsStr s "ubuntu" ∨ containsStr s "debian" ∨
      containsStr s "centos" ∨ containsStr s "fedora" ∨
      containsStr s "red hat" then OSLinux
    else if containsStr s "darwin" ∨ containsStr s "macos" then OSMacOS
    else if containsStr s "freebsd" then OSFreeBSD
    else ""

/-- `osFromBanners`: scan the non-22 banners in enumeration order. -/
def osFromBanners : List (Int × String) → String
  | [] => ""
  | (port, banner) :: rest =>
    if port = 22 then osFromBanners rest
    else
      let b := lowerStr banner
      if containsStr b "windows" ∨ containsStr b "microsoft" ∨
        containsStr b "win32" ∨ containsStr b "win64" then OSWindows
      else if containsStr b "ubuntu" ∨ containsStr b "debian" ∨
        containsStr b "centos" ∨ containsStr b "fedora" ∨
        containsStr b "linux" then OSLinux
      else if containsStr b "darwin" ∨ containsStr b "macos" ∨
        containsStr b "mac os" then OSMacOS
      else if containsStr b "freebsd" then OSFreeBSD
      else osFromBanners rest

/-- `osFromExtraData`: keyword classes over the flattened mDNS/SSDP data. -/
def osFromExtraData (extra : List (String × String)) : String :=
  if extra.isEmpty then ""
  else
    let combined := lowerStr (flattenMap extra)
    if containsStr combined "iphone" ∨ containsStr combined "ipad" ∨
      containsStr combined "ipod" then OSIOS
    else if containsStr combined "apple" ∨ containsStr combined "airplay" ∨
      containsStr combined "_companion-link" ∨ containsStr combined "macos" ∨
      containsStr combined "mac os" then OSMacOS
    else if containsStr combined "android" then OSAndroid
    else if containsStr combined "windows" ∨ containsStr combined "microsoft"
      then OSWindows
    else if containsStr combined "linux" ∨ containsStr combined "ubuntu" ∨
      containsStr combined "debian" ∨ containsStr combined "fedora"
      then OSLinux
    else ""

/-- `classifyTTL`: map a received TTL to an OS guess. -/
def classifyTTL (ttl : Int) : String :=
  if ttl ≤ 0 then ""
  else if ttl ≤ 64 then OSLinux
  else if ttl ≤ 128 then OSWindows
  else OSLinux

/-- The port list of `osFromTTL`: known ports plus the fallbacks
`80, 443, 22` not already present. -/
def withFallbacks (fallbacks knownPorts : List Int) : List Int :=
  fallbacks.foldl (fun ps p => if ps.contains p then ps else ps ++ [p])
    knownPorts

/-- The dial loop of `osFromTTL`: first port whose observed TTL is
positive decides. -/
def firstTTLVerdict (getTTL : Int → Int) : List Int → String
  | [] => ""
  | p :: rest =>
    if getTTL p ≤ 0 then firstTTLVerdict getTTL rest
    else classifyTTL (getTTL p)

/-- `osFromTTL` with the network modelled by the `getTTL` oracle. -/
def osFromTTL (getTTL : Int → Int) (knownPorts : List Int) : String :=
  firstTTLVerdict getTTL (withFallbacks [80, 443, 22] knownPorts)

/-- `osFromPorts`: RDP / SMB+WinRM → Windows, AFP → macOS. -/
def osFromPorts (ports : List Int) : String :=
  if ports.contains 3389 ∨ (ports.contains 445 ∧ ports.contains 5985)
    then OSWindows
  else if ports.contains 548 then OSMacOS
  else ""

/-- `DetectOS`: the seven signals in source order, first non-empty wins. -/
def DetectOS (openPorts : List Int) (banners : List (Int × String))
    (httpServer netbiosName : String) (extraData : List (String × String))
    (getTTL : Int → Int) : String :=
  if osFromSSHBanner banners ≠ "" then osFromSSHBanner banners
  else if osFromHTTPServer httpServer ≠ "" then osFromHTTPServer httpServer
  else if osFromBanners banners ≠ "" then osFromBanners banners
  else if osFromExtraData extraData ≠ "" then osFromExtraData extraData
  else if netbiosName ≠ "" then OSWindows
  else if osFromTTL getTTL openPorts ≠ "" then osFromTTL getTTL openPorts
  else if osFromPorts openPorts ≠ "" then osFromPorts openPorts
  else OSUnknown

lemma firstNonEmpty_cons (s : String) (rest : List String) :
    firstNonEmpty (s :: rest) = if s = "" then firstNonEmpty rest else s := by
  by_cases h : s = "" <;> simp [firstNonEmpty, List.find?_cons, h]

/-- C4: `DetectOS` is the first non-empty of the seven stage verdicts in
source order; the port-22 banner `"OpenSSH_8.6 Ubuntu"` verdict (Linux)
wins over the port-3389 heuristic regardless of the TTL the network would
report; a device whose only signal is a non-empty NetBIOS name is
classified Windows. -/
theorem C4_detect_os_order :
    (∀ openPorts banners httpServer netbiosName extraData getTTL,
      DetectOS openPorts banners httpServer netbiosName extraData getTTL =
        firstNonEmpty [osFromSSHBanner banners, osFromHTTPServer httpServer,
          osFromBanners banners, osFromExtraData extraData,
          if netbiosName ≠ "" then OSWindows else "",
          osFromTTL getTTL openPorts, osFromPorts openPorts]) ∧
    (∀ getTTL,
      DetectOS [22, 3389] [(22, "OpenSSH_8.6 Ubuntu")] "" "" [] getTTL =
        OSLinux) ∧
    (∀ netbiosName getTTL, netbiosName ≠ "" →
      DetectOS [] [] "" netbiosName [] getTTL = OSWindows) := by
  refine ⟨?_, ?_, ?_⟩
  · intro openPorts banners httpServer netbiosName extraData getTTL
    rw [DetectOS]
    simp only [firstNonEmpty_cons, ne_eq, ite_not]
    split_ifs <;> simp_all [firstNonEmpty, OSUnknown, OSWindows]
  · intro getTTL
    have h1 : osFromSSHBanner [(22, "OpenSSH_8.6 Ubuntu")] = OSLinux := by
      decide
    rw [DetectOS, h1]
    simp [OSLinux]
  · intro netbiosName getTTL hnb
    have h1 : osFromSSHBanner ([] : List (Int × String)) = "" := rfl
    have h2 : osFromHTTPServer "" = "" := rfl
    have h3 : osFromBanners ([] : List (Int × String)) = "" := rfl
    have h4 : osFromExtraData ([] : List (String × String)) = "" := rfl
    rw [DetectOS, h1, h2, h3, h4]
    simp [hnb]

/-- Witness for C4: the two concrete scenarios at a fixed TTL oracle
reporting 128 on every port. -/
theorem C4_detect_os_order_witness :
    DetectOS [22, 3389] [(22, "OpenSSH_8.6 Ubuntu")] "" "" []
      (fun _ => 128) = OSLinux ∧
    ("WORKSTATION" : String) ≠ "" ∧
    DetectOS [] [] "" "WORKSTATION" [] (fun _ => 128) = OSWindows := by
  have hne : ("WORKSTATION" : String) ≠ "" := by decide
  exact ⟨C4_detect_os_order.2.1 (fun _ => 128), hne,
    C4_detect_os_order.2.2 "WORKSTATION" (fun _ => 128) hne⟩

/-! ## Device-type fingerprint (`Fingerprint` —
src/internal/core/probe/fingerprint.go) -/

def TypeRouter : String := "Router/Gateway"
def TypePrinter : String := "Printer"
def TypeNAS : String := "NAS/Storage"
def TypeCamera : String := "IP Camera"
def TypeSmartTV : String := "Smart TV"
def TypePhone : String := "Phone/Tablet"
def TypeDesktop : String := "Desktop/Laptop"
def TypeServer : String := "Server"
def TypeSmartHome : String := "Smart Home"
def TypeGameConsole : String := "Game Console"
def TypeUnknown : String := "Unknown"

/-- Keyword rule table scan: first rule with a contained keyword wins. -/
def applyKeywordRules (text : String) : List (List String × String) → String
  | [] => ""
  | (kws, dtype) :: rest =>
    if kws.any (fun kw => containsStr text kw) then dtype
    else applyKeywordRules text rest

/-- The manufacturer rule table of `fingerprintByManufacturer`. -/
def mfrRules : List (List String × String) :=
  [(["apple", "samsung", "huawei", "xiaomi", "oppo", "vivo", "oneplus",
     "motorola", "nokia", "sony mobile", "google", "pixel"], TypePhone),
   (["canon", "epson", "brother", "lexmark", "xerox", "ricoh",
     "kyocera", "konica"], TypePrinter),
   (["cisco", "juniper", "arista", "ubiquiti", "mikrotik", "netgear",
     "tp-link", "d-link", "linksys", "zyxel", "zte"], TypeRouter),
   (["synology", "qnap", "western digital", "buffalo", "seagate"], TypeNAS),
   (["lg electronics", "tcl", "hisense", "vizio", "roku"], TypeSmartTV),
   (["nintendo", "valve"], TypeGameConsole),
   (["espressif", "tuya", "shelly", "sonoff", "wemo", "ring",
     "nest", "amazon", "echo"], TypeSmartHome),
   (["dell", "lenovo", "hewlett", "hp inc", "acer", "intel",
     "realtek", "gigabyte", "msi", "asustek"], TypeDesktop),
   (["hikvision", "dahua", "axis", "reolink", "amcrest", "wyze"],
     TypeCamera)]

/-- The service rule table of `fingerprintByServices`. -/
def svcRules : List (List String × String) :=
  [(["printer", "_ipp.", "_pdl-"], TypePrinter),
   (["chromecast", "googlecast", "smarttv", "roku", "airplay", "_raop."],
     TypeSmartTV),
   (["camera", "ipcam"], TypeCamera),
   (["_smb.", "_afp.", "timemachine"], TypeNAS),
   (["homekit", "_hap."], TypeSmartHome),
   (["playstation", "xbox", "nintendo"], TypeGameConsole)]

/-- `fingerprintByManufacturer` (input already lower-cased). -/
def fingerprintByManufacturer (mfr : String) : String :=
  if mfr = "" then "" else applyKeywordRules mfr mfrRules

/-- `fingerprintByServices` (input: lower-cased flattened extra data). -/
def fingerprintByServices (extra : String) : String :=
  if extra = "" then "" else applyKeywordRules extra svcRules

/-- `fingerprintByPorts` (the `httpServer` argument is the lower-cased
`Server` header, as passed by `Fingerprint`). -/
def fingerprintByPorts (ports : List Int) (banners : List (Int × String))
    (httpServer : String) : String :=
  if ports.contains 9100 ∨ ports.contains 631 then TypePrinter
  else if ports.contains 554 then TypeCamera
  else if ports.contains 53 ∨ ports.contains 67 ∨ ports.contains 68 then
    TypeRouter
  else if ports.contains 139 ∧ ports.contains 445 ∧
    (ports.contains 80 ∨ ports.contains 443) then TypeNAS
  else if ports.contains 22 ∧ (ports.contains 80 ∨ ports.contains 443) ∧
    (ports.contains 3306 ∨ ports.contains 5432 ∨ ports.contains 27017 ∨
      ports.contains 9200 ∨ ports.contains 6379) then TypeServer
  else if httpServer ≠ "" ∧ (containsStr httpServer "printer" ∨
    containsStr httpServer "cups") then TypePrinter
  else if containsStr (lowerStr (flattenBanners banners)) "ssh" then
    TypeDesktop
  else ""

/-- `Fingerprint`: manufacturer, then services, then ports; first
non-empty wins, `"Unknown"` otherwise. -/
def Fingerprint (mac manufacturer : String) (openPorts : List Int)
    (banners : List (Int × String)) (netbiosName httpServer : String)
    (extraData : List (String × String)) : String :=
  let mfr := lowerStr manufacturer
  let srv := lowerStr httpServer
  let allExtra := lowerStr (flattenMap extraData)
  if fingerprintByManufacturer mfr ≠ "" then fingerprintByManufacturer mfr
  else if fingerprintByServices allExtra ≠ "" then
    fingerprintByServices allExtra
  else if fingerprintByPorts openPorts banners srv ≠ "" then
    fingerprintByPorts openPorts banners srv
  else TypeUnknown

/-- C5: `Fingerprint` applies manufacturer → services → ports in that
fixed precedence, returning the first non-empty verdict and `"Unknown"`
when all three are empty; manufacturer `"Canon Inc."` gives Printer, extra
data `{"mdns.service": "_airplay._tcp"}` gives Smart TV, and open ports
`[139, 445, 80]` give NAS/Storage. -/
theorem C5_fingerprint :
    (∀ mac manufacturer openPorts banners netbiosName httpServer extraData,
      Fingerprint mac manufacturer openPorts banners netbiosName httpServer
          extraData =
        (if firstNonEmpty
            [fingerprintByManufacturer (lowerStr manufacturer),
             fingerprintByServices (lowerStr (flattenMap extraData)),
             fingerprintByPorts openPorts banners (lowerStr httpServer)] = ""
         then TypeUnknown
         else firstNonEmpty
            [fingerprintByManufacturer (lowerStr manufacturer),
             fingerprintByServices (lowerStr (flattenMap extraData)),
             fingerprintByPorts openPorts banners (lowerStr httpServer)])) ∧
    Fingerprint "" "Canon Inc." [] [] "" "" [] = TypePrinter ∧
    Fingerprint "" "" [] [] "" ""
      [("mdns.service", "_airplay._tcp")] = TypeSmartTV ∧
    Fingerprint "" "" [139, 445, 80] [] "" "" [] = TypeNAS := by
  refine ⟨?_, by decide, by decide, by decide⟩
  intro mac manufacturer openPorts banners netbiosName httpServer extraData
  rw [Fingerprint]
  simp only [firstNonEmpty_cons, ne_eq, ite_not]
  split_ifs <;> simp_all [firstNonEmpty, TypeUnknown]

/-! ## C9: classification determinism -/

lemma perm_contains {l1 l2 : List Int} (h : List.Perm l1 l2) (a : Int) :
    l1.contains a = l2.contains a := by
  simp only [List.contains, List.elem_eq_mem]
  simp [h.mem_iff]

/-- Counterexample to C9 as stated: the banner maps
`{21: "220 Microsoft FTP Service", 25: "ESMTP Postfix (Ubuntu)"}` — one
single map value, presented in its two possible enumeration orders —
drive `DetectOS` to `Windows` in one order and `Linux` in the other, so
the OS classifier is not a function of the abstract map alone. -/
theorem C9_determinism_cex :
    List.Perm
      [((21 : Int), "220 Microsoft FTP Service"),
       (25, "ESMTP Postfix (Ubuntu)")]
      [((25 : Int), "ESMTP Postfix (Ubuntu)"),
       (21, "220 Microsoft FTP Service")] ∧
    (List.map Prod.fst
      [((21 : Int), "220 Microsoft FTP Service"),
       (25, "ESMTP Postfix (Ubuntu)")]).Nodup ∧
    DetectOS [] [(21, "220 Microsoft FTP Service"),
      (25, "ESMTP Postfix (Ubuntu)")] "" "" [] (fun _ => -1) = OSWindows ∧
    DetectOS [] [(25, "ESMTP Postfix (Ubuntu)"),
      (21, "220 Microsoft FTP Service")] "" "" [] (fun _ => -1) = OSLinux ∧
    OSWindows ≠ OSLinux := by
  refine ⟨List.Perm.swap _ _ _, by decide, by decide, by decide, by decide⟩

/-- C9 (amended: the classifiers are deterministic functions of their
inputs with the banner/extra-data maps taken as ordered entry lists; the
device-type classifier is invariant under permutation of the open-ports
list, but the OS verdict can change when the banner map's entries are
enumerated in a different order): `Fingerprint` yields identical outputs
on any two permutations of the same open-ports list. -/
theorem C9_determinism_amended (mac manufacturer : String)
    (ports1 ports2 : List Int) (banners : List (Int × String))
    (netbiosName httpServer : String) (extraData : List (String × String))
    (h : List.Perm ports1 ports2) :
    Fingerprint mac manufacturer ports1 banners netbiosName httpServer
        extraData =
      Fingerprint mac manufacturer ports2 banners netbiosName httpServer
        extraData := by
  have hfp : fingerprintByPorts ports1 banners (lowerStr httpServer) =
      fingerprintByPorts ports2 banners (lowerStr httpServer) := by
    rw [fingerprintByPorts, fingerprintByPorts]
    simp only [perm_contains h]
  rw [Fingerprint, Fingerprint, hfp]

/-- Witness for C9 (amended): the port lists `[80, 22]` and `[22, 80]`
give the same device type. -/
theorem C9_determinism_amended_witness :
    Fingerprint "" "" [80, 22] [(22, "SSH-2.0-OpenSSH_9.0")] "" "" [] =
      Fingerprint "" "" [22, 80] [(22, "SSH-2.0-OpenSSH_9.0")] "" "" [] :=
  C9_determinism_amended "" "" [80, 22] [22, 80]
    [(22, "SSH-2.0-OpenSSH_9.0")] "" "" [] (List.Perm.swap _ _ _)

/-! ## Prober port handling (`RunAll`, `isHTTPPort` — src/unnamed/part_001)

The network is an oracle pair: `grab port` is the (sanitized) banner
`GrabBanner` would return on a port, `fetch port` the `(title, server)`
pair `FetchHTTPInfo` would return.  `runAllBanners`/`runAllHTTP` embed the
two port loops of step 4 of `RunAll` (the composite `server | "title"`
banner the HTTP loop additionally stores is not modelled; no claim
concerns it). -/

/-- `isHTTPPort`. -/
def isHTTPPort (port : Int) : Bool :=
  port == 80 || port == 443 || port == 8080 || port == 8443 || port == 9090

/-- One iteration of the banner-grab loop of `RunAll`: skip HTTP ports,
store a non-empty banner. -/
def bannerStep (grab : Int → String) (acc : List (Int × String))
    (port : Int) : List (Int × String) :=
  if isHTTPPort port then acc
  else if grab port ≠ "" then acc ++ [(port, grab port)] else acc

/-- The banner-grab loop of `RunAll` over the open ports in order. -/
def runAllBanners (grab : Int → String) (openPorts : List Int) :
    List (Int × String) :=
  openPorts.foldl (bannerStep grab) []

/-- One iteration of the HTTP loop of `RunAll`: skip non-HTTP ports,
fill `http_title`/`http_server` only while still empty. -/
def httpStep (fetch : Int → String × String) (ts : String × String)
    (port : Int) : String × String :=
  if isHTTPPort port then
    ((if (fetch port).1 ≠ "" ∧ ts.1 = "" then (fetch port).1 else ts.1),
     (if (fetch port).2 ≠ "" ∧ ts.2 = "" then (fetch port).2 else ts.2))
  else ts

/-- The HTTP loop of `RunAll`: `(http_title, http_server)` after visiting
the open ports in order. -/
def runAllHTTP (fetch : Int → String × String) (openPorts : List Int) :
    String × String :=
  openPorts.foldl (httpStep fetch) ("", "")

/-- Simple ascending insertion sort, used to state the spec's
"ports consulted in ascending order" reading. -/
def insertAsc (x : Int) : List Int → List Int
  | [] => [x]
  | y :: ys => if x ≤ y then x :: y :: ys else y :: insertAsc x ys

def sortAsc (l : List Int) : List Int := l.foldr insertAsc []

/-- Modelled from the spec's words: the first non-empty HTTP title with
the HTTP ports consulted in *ascending* order. -/
def httpTitleAscending (fetch : Int → String × String)
    (openPorts : List Int) : String :=
  firstNonEmpty
    ((sortAsc (openPorts.filter (fun p => isHTTPPort p))).map
      (fun p => (fetch p).1))

/-- Fetch oracle for the C6 counterexample: distinct titles on ports
8080 and 80. -/
def cexFetch (port : Int) : String × String :=
  if port = 8080 then ("Title-8080", "Srv-8080")
  else if port = 80 then ("Title-80", "Srv-80")
  else ("", "")

lemma fillFirst_fold (get : Int → String) :
    ∀ (ports : List Int) (t : String),
      ports.foldl (fun t' p => if isHTTPPort p then
          (if get p ≠ "" ∧ t' = "" then get p else t') else t') t =
        if t = "" then
          firstNonEmpty ((ports.filter (fun p => isHTTPPort p)).map get)
        else t := by
  intro ports
  induction ports with
  | nil =>
    intro t
    by_cases ht : t = "" <;> simp [firstNonEmpty, ht]
  | cons p rest ih =>
    intro t
    rw [List.foldl_cons]
    by_cases hp : isHTTPPort p
    · by_cases ht : t = "" <;> by_cases hg : get p = "" <;>
        simp [hp, ht, hg, ih, List.filter_cons, firstNonEmpty_cons]
    · simp only [Bool.not_eq_true] at hp
      simp [hp, ih, List.filter_cons]

lemma httpStep_fold_fst (fetch : Int → String × String) :
    ∀ (ports : List Int) (t s : String),
      (ports.foldl (httpStep fetch) (t, s)).1 =
        ports.foldl (fun t' p => if isHTTPPort p then
          (if (fetch p).1 ≠ "" ∧ t' = "" then (fetch p).1 else t') else t')
          t := by
  intro ports
  induction ports with
  | nil => intro t s; rfl
  | cons p rest ih =>
    intro t s
    rw [List.foldl_cons, List.foldl_cons, httpStep]
    by_cases hp : isHTTPPort p <;> simp [hp, ih]

lemma httpStep_fold_snd (fetch : Int → String × String) :
    ∀ (ports : List Int) (t s : String),
      (ports.foldl (httpStep fetch) (t, s)).2 =
        ports.foldl (fun s' p => if isHTTPPort p then
          (if (fetch p).2 ≠ "" ∧ s' = "" then (fetch p).2 else s') else s')
          s := by
  intro ports
  induction ports with
  | nil => intro t s; rfl
  | cons p rest ih =>
    intro t s
    rw [List.foldl_cons, List.foldl_cons, httpStep]
    by_cases hp : isHTTPPort p <;> simp [hp, ih]

lemma bannerStep_fold (grab : Int → String) :
    ∀ (ports : List Int) (acc : List (Int × String)),
      ports.foldl (bannerStep grab) acc =
        acc ++ (ports.filter (fun p => ! isHTTPPort p)).filterMap
          (fun p => if grab p ≠ "" then some (p, grab p) else none) := by
  intro ports
  induction ports with
  | nil => intro acc; simp
  | cons p rest ih =>
    intro acc
    rw [List.foldl_cons, bannerStep]
    by_cases hp : isHTTPPort p
    · simp [hp, ih, List.filter_cons]
    · simp only [Bool.not_eq_true] at hp
      by_cases hg : grab p = ""
      · simp [hp, hg, ih, List.filter_cons]
      · simp [hp, hg, ih, List.filter_cons, List.append_assoc]

/-- Counterexample to C6 as stated: with open ports `[8080, 80]` the code
takes the title of port 8080 (list order), while consulting the HTTP
ports in ascending order would take the title of port 80. -/
theorem C6_runall_cex :
    (runAllHTTP cexFetch [8080, 80]).1 = "Title-8080" ∧
    httpTitleAscending cexFetch [8080, 80] = "Title-80" ∧
    ("Title-8080" : String) ≠ "Title-80" := by
  refine ⟨by decide, by decide, by decide⟩

/-- C6 (amended: the HTTP ports are consulted in the order they appear in
the open-ports list, not in ascending order): `RunAll` treats exactly
`{80, 443, 8080, 8443, 9090}` as HTTP ports, grabs banners on exactly the
non-HTTP open ports (keeping the non-empty ones), fetches HTTP info on
each HTTP open port, and fills `http_title`/`http_server` with the first
non-empty value in list order. -/
theorem C6_runall_http :
    (∀ p : Int, isHTTPPort p = true ↔
      (p = 80 ∨ p = 443 ∨ p = 8080 ∨ p = 8443 ∨ p = 9090)) ∧
    (∀ (grab : Int → String) (ports : List Int),
      runAllBanners grab ports =
        (ports.filter (fun p => ! isHTTPPort p)).filterMap
          (fun p => if grab p ≠ "" then some (p, grab p) else none)) ∧
    (∀ (fetch : Int → String × String) (ports : List Int),
      (runAllHTTP fetch ports).1 =
        firstNonEmpty ((ports.filter (fun p => isHTTPPort p)).map
          (fun p => (fetch p).1)) ∧
      (runAllHTTP fetch ports).2 =
        firstNonEmpty ((ports.filter (fun p => isHTTPPort p)).map
          (fun p => (fetch p).2))) := by
  refine ⟨?_, ?_, ?_⟩
  · intro p
    simp [isHTTPPort]
    tauto
  · intro grab ports
    rw [runAllBanners, bannerStep_fold]
    simp
  · intro fetch ports
    constructor
    · rw [runAllHTTP, httpStep_fold_fst, fillFirst_fold]
      simp
    · rw [runAllHTTP, httpStep_fold_snd, fillFirst_fold]
      simp

/-! ## Interface listing (`ListAllInterfaces`, `isLANSuitable` —
src/internal/core/discovery/network_utils.go)

A `net.Interface` is modelled by its flags and its address list;
`addrs = none` models an `iface.Addrs()` error.  An address carries
whether the `*net.IPNet` type assertion succeeds, whether `IP.To4()` is
non-nil, and the `ones` of `Mask.Size()`, plus the display strings. -/

structure NetAddr where
  isIPNet : Bool
  isIPv4 : Bool
  maskOnes : Nat
  ipStr : String
  subnetStr : String
deriving DecidableEq

structure GoInterface where
  name : String
  mac : String
  up : Bool
  loopback : Bool
  pointToPoint : Bool
  broadcast : Bool
  multicast : Bool
  addrs : Option (List NetAddr)
deriving DecidableEq

/-- `isLANSuitable`: up, non-loopback, non-point-to-point, broadcast,
and some IPv4 address whose mask has `ones <= 30`. -/
def isLANSuitable (iface : GoInterface) : Bool :=
  if ¬ iface.up then false
  else if iface.loopback then false
  else if iface.pointToPoint then false
  else if ¬ iface.broadcast then false
  else
    match iface.addrs with
    | none => false
    | some addrs =>
      addrs.any (fun a => a.isIPNet && a.isIPv4 && a.maskOnes ≤ 30)

structure InterfaceEntry where
  name : String
  ipv4 : String
  subnet : String
  mac : String
  flags : String
  isVPN : Bool
deriving DecidableEq

/-- The flags-description string built by `ListAllInterfaces`. -/
def entryFlags (iface : GoInterface) : String :=
  let flags :=
    (if iface.broadcast then ["broadcast"] else []) ++
    (if iface.pointToPoint then ["point-to-point"] else []) ++
    (if iface.multicast then ["multicast"] else [])
  if flags.isEmpty then ""
  else "[" ++ String.intercalate ", " flags ++ "]"

/-- The per-interface body of the `ListAllInterfaces` loop: skip
down/loopback interfaces and address errors, build one entry from the
first IPv4 `*net.IPNet` address, flag `IsVPN` when point-to-point or not
broadcast-capable. -/
def entryOf (iface : GoInterface) : Option InterfaceEntry :=
  if ¬ iface.up ∨ iface.loopback then none
  else
    match iface.addrs with
    | none => none
    | some addrs =>
      match addrs.find? (fun a => a.isIPNet && a.isIPv4) with
      | none => none
      | some a =>
        some { name := iface.name, ipv4 := a.ipStr, subnet := a.subnetStr,
               mac := iface.mac, flags := entryFlags iface,
               isVPN := iface.pointToPoint || ! iface.broadcast }

/-- `ListAllInterfaces` over a host interface list. -/
def ListAllInterfaces (ifaces : List GoInterface) : List InterfaceEntry :=
  ifaces.filterMap entryOf

/-- An up, broadcast-capable ethernet-style interface whose only IPv4
address has a `/32` mask: not LAN-suitable, yet not flagged as VPN. -/
def cexSlash32 : GoInterface :=
  { name := "eth0", mac := "aa:bb:cc:dd:ee:01", up := true,
    loopback := false, pointToPoint := false, broadcast := true,
    multicast := true,
    addrs := some [{ isIPNet := true, isIPv4 := true, maskOnes := 32,
                     ipStr := "10.0.0.5", subnetStr := "10.0.0.5/32" }] }

/-- A point-to-point tunnel interface with an IPv4 address. -/
def cexTun : GoInterface :=
  { name := "tun0", mac := "", up := true, loopback := false,
    pointToPoint := true, broadcast := false, multicast := true,
    addrs := some [{ isIPNet := true, isIPv4 := true, maskOnes := 32,
                     ipStr := "10.8.0.2", subnetStr := "10.8.0.2/32" }] }

/-- Counterexample to C7 as stated: `cexSlash32` is up, non-loopback,
has an IPv4 address and fails the LAN-suitability predicate (mask `/32`),
yet its listed entry carries `is_vpn = false`. -/
theorem C7_interface_cex :
    cexSlash32.up = true ∧ cexSlash32.loopback = false ∧
    isLANSuitable cexSlash32 = false ∧
    (ListAllInterfaces [cexSlash32]).map (fun e => e.isVPN) = [false] := by
  refine ⟨by decide, by decide, by decide, by decide⟩

/-- C7 (amended: an entry is flagged `is_vpn = true` exactly when its
interface is point-to-point or lacks broadcast capability; an up,
non-loopback, broadcast-capable, non-point-to-point interface whose IPv4
masks are all longer than /30 fails LAN-suitability but is listed
unflagged): every listed entry comes from an up, non-loopback interface,
its flag equals `pointToPoint || !broadcast`, and a flagged interface is
indeed not LAN-suitable. -/
theorem C7_interface_vpn_flag (iface : GoInterface) (e : InterfaceEntry)
    (h : entryOf iface = some e) :
    iface.up = true ∧ iface.loopback = false ∧
    e.isVPN = (iface.pointToPoint || ! iface.broadcast) ∧
    (e.isVPN = true → isLANSuitable iface = false) := by
  rw [entryOf] at h
  split at h
  next hup => exact absurd h (by simp)
  next hup =>
    push_neg at hup
    obtain ⟨hu, hl⟩ := hup
    have hl' : iface.loopback = false := by simpa using hl
    split at h
    next => exact absurd h (by simp)
    next addrs haddrs =>
      split at h
      next => exact absurd h (by simp)
      next a hfind =>
        simp only [Option.some.injEq] at h
        subst h
        refine ⟨hu, hl', rfl, ?_⟩
        intro hvpn
        simp only [Bool.or_eq_true, Bool.not_eq_true'] at hvpn
        rw [isLANSuitable]
        rcases hvpn with hp | hb
        · simp [hu, hl', hp]
        · simp [hu, hl', hb]

/-- Witness for C7 (amended): the tunnel interface `cexTun` is listed
with `is_vpn = true` and is not LAN-suitable. -/
theorem C7_interface_vpn_flag_witness :
    cexTun.up = true ∧ cexTun.loopback = false ∧
    ({ name := "tun0", ipv4 := "10.8.0.2", subnet := "10.8.0.2/32",
       mac := "", flags := entryFlags cexTun,
       isVPN := true } : InterfaceEntry).isVPN =
      (cexTun.pointToPoint || ! cexTun.broadcast) ∧
    isLANSuitable cexTun = false := by
  have h := C7_interface_vpn_flag cexTun
    { name := "tun0", ipv4 := "10.8.0.2", subnet := "10.8.0.2/32",
      mac := "", flags := entryFlags cexTun, isVPN := true } (by decide)
  exact ⟨h.1, h.2.1, h.2.2.1, h.2.2.2 (by decide)⟩

/-! ## NBSTAT response parsing (`parseNBSTATResponse` —
src/unnamed/part_002)

The response buffer is a `List Nat` of bytes; `byteAt data i` is the read
`data[i]` (every such read in the source is guarded by a bounds check,
which claim C10 verifies via the checked variant below). -/

/-- `data[i]` on a byte buffer (`0` default is never reached by the
parser's guarded reads). -/
def byteAt (data : List Nat) (i : Nat) : Nat := data.getD i 0

/-- The label walk
`for pos < len(data) && data[pos] != 0x00 { pos += int(data[pos]) + 1 }`,
terminating because `pos` strictly increases while bounded. -/
def skipLabels (data : List Nat) (pos : Nat) : Nat :=
  if pos < data.length ∧ byteAt data pos ≠ 0 then
    skipLabels data (pos + byteAt data pos + 1)
  else pos
termination_by data.length - pos
decreasing_by omega

/-- `strings.TrimRight(name, " \x00")` on name bytes. -/
def trimNB (l : List Nat) : List Nat :=
  (l.reverse.dropWhile (fun b => b = 32 ∨ b = 0)).reverse

/-- One 18-byte name entry at `pos`: trimmed 15-byte name, suffix byte,
16-bit big-endian flags. -/
def nbstatEntryAt (data : List Nat) (pos : Nat) : List Nat × Nat × Nat :=
  (trimNB ((data.drop pos).take 15), byteAt data (pos + 15),
   byteAt data (pos + 16) <<< 8 ||| byteAt data (pos + 17))

/-- The selection test of the entry loop: suffix `0x00`, group flag
(bit 15) clear, trimmed name non-empty. -/
def nbstatQualifies (e : List Nat × Nat × Nat) : Bool :=
  decide (e.2.1 = 0 ∧ e.2.2 &&& 32768 = 0 ∧ e.1 ≠ [])

/-- The entry loop `for i < numNames && pos+18 <= len(data)`: return the
first qualifying name, advancing 18 bytes per entry. -/
def nbstatEntriesLoop (data : List Nat) : Nat → Nat → List Nat
  | _, 0 => []
  | pos, k + 1 =>
    if pos + 18 ≤ data.length then
      if nbstatQualifies (nbstatEntryAt data pos) then
        (nbstatEntryAt data pos).1
      else nbstatEntriesLoop data (pos + 18) k
    else []

/-- The header/name walk of `parseNBSTATResponse` up to the first name
entry: returns `(first entry position, numNames)`, or `none` for the
source's early `return ""` paths (short buffer, truncation, zero
names, first entry does not fit). -/
def nbstatTail (data : List Nat) (pos3 : Nat) : Option (Nat × Nat) :=
  let pos4 := pos3 + 10
  if pos4 ≥ data.length then none
  else
    let numNames := byteAt data pos4
    let pos5 := pos4 + 1
    if numNames = 0 ∨ pos5 + 18 > data.length then none
    else some (pos5, numNames)

def nbstatNamesPos (data : List Nat) : Option (Nat × Nat) :=
  if data.length < 57 then none
  else
    let pos2 := skipLabels data 12 + 1 + 4
    if pos2 ≥ data.length then none
    else
      let pos3 :=
        if byteAt data pos2 &&& 192 = 192 then pos2 + 2
        else skipLabels data pos2 + 1
      nbstatTail data pos3

/-- `parseNBSTATResponse`: name bytes of the first qualifying entry, `[]`
(Go `""`) on any parse failure. -/
def parseNBSTATResponse (data : List Nat) : List Nat :=
  match nbstatNamesPos data with
  | none => []
  | some (pos, numNames) => nbstatEntriesLoop data pos numNames

/-- The claim's reading of the entry scan: among the
`min numNames fitting` complete 18-byte entries, the first one with
suffix `0x00`, clear group flag and non-empty trimmed name. -/
def nbstatSpec (data : List Nat) : List Nat :=
  match nbstatNamesPos data with
  | none => []
  | some (pos, numNames) =>
    match ((List.range (min numNames ((data.length - pos) / 18))).map
        (fun i => nbstatEntryAt data (pos + 18 * i))).find?
        nbstatQualifies with
    | some e => e.1
    | none => []

/-- The canned port-137 response of the roundtrip scenario: header,
echoed question name, pointer-compressed answer name, then two name
entries — a group record `"WORKGROUP      "` (suffix `0x1E`, flags
`0x8400`) followed by `"WORKSTATION    "` (suffix `0x00`, flags
`0x0400`). -/
def cannedNBSTAT : List Nat :=
  [0, 1, 132, 0, 0, 0, 0, 1, 0, 0, 0, 0] ++
  [32] ++ List.replicate 32 67 ++ [0] ++
  [0, 33, 0, 1] ++
  [192, 12] ++
  [0, 33, 0, 1, 0, 0, 0, 0, 0, 38] ++
  [2] ++
  strBytes "WORKGROUP      " ++ [30, 132, 0] ++
  strBytes "WORKSTATION    " ++ [0, 4, 0]

lemma entriesLoop_eq_find (data : List Nat) :
    ∀ (k pos : Nat),
      nbstatEntriesLoop data pos k =
        match ((List.range (min k ((data.length - pos) / 18))).map
            (fun i => nbstatEntryAt data (pos + 18 * i))).find?
            nbstatQualifies with
        | some e => e.1
        | none => [] := by
  intro k
  induction k with
  | zero => intro pos; simp [nbstatEntriesLoop]
  | succ k ih =>
    intro pos
    by_cases hb : pos + 18 ≤ data.length
    · have hfit : min (k + 1) ((data.length - pos) / 18) =
          min k ((data.length - (pos + 18)) / 18) + 1 := by
        have h18 : (data.length - pos) / 18 =
            (data.length - (pos + 18)) / 18 + 1 := by omega
        rw [h18]
        omega
      rw [nbstatEntriesLoop, if_pos hb, hfit, List.range_succ_eq_map]
      simp only [List.map_cons, List.map_map, Nat.mul_zero, Nat.add_zero]
      have hmap : (List.range (min k ((data.length - (pos + 18)) / 18))).map
          ((fun i => nbstatEntryAt data (pos + 18 * i)) ∘ Nat.succ) =
          (List.range (min k ((data.length - (pos + 18)) / 18))).map
          (fun i => nbstatEntryAt data (pos + 18 + 18 * i)) := by
        apply List.map_congr_left
        intro i _
        simp only [Function.comp]
        congr 1
        omega
      rw [hmap, List.find?_cons]
      by_cases hq : nbstatQualifies (nbstatEntryAt data pos)
      · rw [if_pos hq, hq]
      · rw [if_neg hq]
        rw [Bool.not_eq_true] at hq
        rw [hq, ih (pos + 18)]
    · rw [nbstatEntriesLoop, if_neg hb]
      have hz : min (k + 1) ((data.length - pos) / 18) = 0 := by omega
      rw [hz]
      simp

/-- C8: the parser equals the claim's description — walk the header and
names, then return the first of the fitting 18-byte entries whose suffix
is `0x00`, whose group flag is clear and whose trimmed name is non-empty,
and `""` on every parse-failure path (short buffer, truncated structure,
zero names, no qualifying entry); the canned response with a group record
followed by `"WORKSTATION    "`/suffix `0x00`/flags `0x0400` parses to
`"WORKSTATION"`. -/
theorem C8_nbstat_parse :
    (∀ data : List Nat, parseNBSTATResponse data = nbstatSpec data) ∧
    parseNBSTATResponse cannedNBSTAT = strBytes "WORKSTATION" ∧
    (∀ data : List Nat, data.length < 57 → parseNBSTATResponse data = []) := by
  refine ⟨?_, ?_, ?_⟩
  · intro data
    rw [parseNBSTATResponse, nbstatSpec]
    rcases hnp : nbstatNamesPos data with _ | pn
    · rfl
    · obtain ⟨pos, num⟩ := pn
      exact entriesLoop_eq_find data num pos
  · have hlen : cannedNBSTAT.length = 99 := by decide
    have h12 : byteAt cannedNBSTAT 12 = 32 := by decide
    have h45 : byteAt cannedNBSTAT 45 = 0 := by decide
    have hs : skipLabels cannedNBSTAT 12 = 45 := by
      rw [skipLabels, if_pos ⟨by rw [hlen]; omega, by rw [h12]; omega⟩, h12]
      rw [skipLabels, if_neg (fun hcon => hcon.2 h45)]
    have hnp : nbstatNamesPos cannedNBSTAT = some (63, 2) := by
      rw [nbstatNamesPos, if_neg (by rw [hlen]; omega)]
      simp only [hs]
      rw [if_neg (by rw [hlen]; omega)]
      have h50 : byteAt cannedNBSTAT 50 &&& 192 = 192 := by decide
      rw [if_pos h50, nbstatTail]
      rw [if_neg (by rw [hlen]; omega)]
      have h62 : byteAt cannedNBSTAT 62 = 2 := by decide
      simp only [h62]
      rw [if_neg (by rw [hlen]; omega)]
    rw [parseNBSTATResponse, hnp]
    decide
  · intro data hshort
    rw [parseNBSTATResponse, nbstatNamesPos, if_pos hshort]

/-- Witness for C8: the short-buffer clause at the 3-byte buffer
`[1, 2, 3]`, which parses to `""`. -/
theorem C8_nbstat_parse_witness :
    ([1, 2, 3] : List Nat).length < 57 ∧
    parseNBSTATResponse [1, 2, 3] = [] :=
  ⟨by decide, C8_nbstat_parse.2.2 [1, 2, 3] (by decide)⟩

/-! ### C10: bounds-checked variant

Every `data[i]` read and every slice of the source is replaced by a
checked access that yields `none` (a fault) when the index is out of
bounds; C10 states the checked parser never faults. -/

/-- Checked single-byte read: `none` models a Go index panic. -/
def readC (data : List Nat) (i : Nat) : Option Nat := data[i]?

/-- Checked slice `data[pos : pos+n]`: `none` models a Go slice panic. -/
def sliceC (data : List Nat) (pos n : Nat) : Option (List Nat) :=
  if pos + n ≤ data.length then some ((data.drop pos).take n) else none

/-- The label walk with checked reads (the loop condition short-circuits,
so `data[pos]` is only read when `pos < len(data)`). -/
def skipLabelsC (data : List Nat) (pos : Nat) : Option Nat :=
  if pos < data.length then
    match data[pos]? with
    | none => none
    | some b => if b ≠ 0 then skipLabelsC data (pos + b + 1) else some pos
  else some pos
termination_by data.length - pos
decreasing_by omega

/-- The entry loop with checked reads of the 15-byte name slice, the
suffix byte and the two flag bytes. -/
def nbstatEntriesLoopC (data : List Nat) : Nat → Nat → Option (List Nat)
  | _, 0 => some []
  | pos, k + 1 =>
    if pos + 18 ≤ data.length then
      match sliceC data pos 15, readC data (pos + 15), readC data (pos + 16),
          readC data (pos + 17) with
      | some nameRaw, some suffix, some f1, some f2 =>
        if nbstatQualifies (trimNB nameRaw, suffix, f1 <<< 8 ||| f2) then
          some (trimNB nameRaw)
        else nbstatEntriesLoopC data (pos + 18) k
      | _, _, _, _ => none
    else some []

/-- The header/name walk with checked reads: `none` is a fault,
`some none` a clean `return ""`, `some (some _)` reaching the entries. -/
def nbstatTailC (data : List Nat) (pos3 : Nat) :
    Option (Option (Nat × Nat)) :=
  if pos3 + 10 ≥ data.length then some none
  else
    match readC data (pos3 + 10) with
    | none => none
    | some numNames =>
      if numNames = 0 ∨ pos3 + 10 + 1 + 18 > data.length then some none
      else some (some (pos3 + 10 + 1, numNames))

def nbstatNamesPosC (data : List Nat) : Option (Option (Nat × Nat)) :=
  if data.length < 57 then some none
  else
    match skipLabelsC data 12 with
    | none => none
    | some q =>
      if q + 1 + 4 ≥ data.length then some none
      else
        match readC data (q + 1 + 4) with
        | none => none
        | some b =>
          if b &&& 192 = 192 then nbstatTailC data (q + 1 + 4 + 2)
          else
            match skipLabelsC data (q + 1 + 4) with
            | none => none
            | some r => nbstatTailC data (r + 1)

/-- The whole parser with checked reads. -/
def parseNBSTATChecked (data : List Nat) : Option (List Nat) :=
  match nbstatNamesPosC data with
  | none => none
  | some none => some []
  | some (some (pos, numNames)) => nbstatEntriesLoopC data pos numNames

lemma readC_eq (data : List Nat) (i : Nat) (h : i < data.length) :
    readC data i = some (byteAt data i) := by
  simp [readC, byteAt, List.getElem?_eq_getElem h]

lemma skipLabelsC_eq (data : List Nat) (pos : Nat) :
    skipLabelsC data pos = some (skipLabels data pos) := by
  induction pos using skipLabelsC.induct data with
  | case1 pos hlt hnone => simp_all
  | case2 pos hlt b hb hnz ih =>
    have hbyte : byteAt data pos = b := by simp [byteAt, hb]
    rw [skipLabelsC, if_pos hlt, hb]
    show (if b ≠ 0 then skipLabelsC data (pos + b + 1) else some pos) =
      some (skipLabels data pos)
    rw [if_pos hnz]
    have hrhs : skipLabels data pos = skipLabels data (pos + b + 1) := by
      conv_lhs => rw [skipLabels]
      rw [hbyte, if_pos ⟨hlt, hnz⟩]
    rw [hrhs]
    exact ih
  | case3 pos hlt b hb hz =>
    have hbyte : byteAt data pos = b := by simp [byteAt, hb]
    have hb0 : b = 0 := by omega
    rw [skipLabelsC, if_pos hlt, hb]
    show (if b ≠ 0 then skipLabelsC data (pos + b + 1) else some pos) =
      some (skipLabels data pos)
    rw [if_neg hz]
    have hrhs : skipLabels data pos = pos := by
      conv_lhs => rw [skipLabels]
      rw [if_neg (fun hcon => hcon.2 (by rw [hbyte, hb0]))]
    rw [hrhs]
  | case4 pos hlt =>
    rw [skipLabelsC, skipLabels]
    rw [if_neg hlt, if_neg (by omega)]

lemma entriesLoopC_eq (data : List Nat) :
    ∀ (k pos : Nat),
      nbstatEntriesLoopC data pos k = some (nbstatEntriesLoop data pos k) := by
  intro k
  induction k with
  | zero => intro pos; rfl
  | succ k ih =>
    intro pos
    rw [nbstatEntriesLoopC, nbstatEntriesLoop]
    by_cases hb : pos + 18 ≤ data.length
    · rw [if_pos hb, if_pos hb]
      rw [show sliceC data pos 15 = some ((data.drop pos).take 15) from by
        rw [sliceC, if_pos (by omega)]]
      rw [readC_eq data (pos + 15) (by omega),
        readC_eq data (pos + 16) (by omega),
        readC_eq data (pos + 17) (by omega)]
      show (if nbstatQualifies (nbstatEntryAt data pos) then
          some (trimNB ((data.drop pos).take 15))
        else nbstatEntriesLoopC data (pos + 18) k) = _
      by_cases hq : nbstatQualifies (nbstatEntryAt data pos)
      · rw [if_pos hq, if_pos hq]
        rfl
      · rw [if_neg hq, if_neg hq]
        exact ih (pos + 18)
    · rw [if_neg hb, if_neg hb]

lemma tailC_eq (data : List Nat) (pos3 : Nat) :
    nbstatTailC data pos3 = some (nbstatTail data pos3) := by
  rw [nbstatTailC, nbstatTail]
  by_cases h4 : pos3 + 10 ≥ data.length
  · rw [if_pos h4, if_pos h4]
  · rw [if_neg h4, if_neg h4, readC_eq data (pos3 + 10) (by omega)]
    show (if byteAt data (pos3 + 10) = 0 ∨
        pos3 + 10 + 1 + 18 > data.length then some none
      else some (some (pos3 + 10 + 1, byteAt data (pos3 + 10)))) =
      some (if byteAt data (pos3 + 10) = 0 ∨
        pos3 + 10 + 1 + 18 > data.length then none
      else some (pos3 + 10 + 1, byteAt data (pos3 + 10)))
    by_cases h5 : byteAt data (pos3 + 10) = 0 ∨
      pos3 + 10 + 1 + 18 > data.length
    · rw [if_pos h5, if_pos h5]
    · rw [if_neg h5, if_neg h5]

lemma namesPosC_eq (data : List Nat) :
    nbstatNamesPosC data = some (nbstatNamesPos data) := by
  rw [nbstatNamesPosC, nbstatNamesPos]
  by_cases h57 : data.length < 57
  · rw [if_pos h57, if_pos h57]
  · rw [if_neg h57, if_neg h57, skipLabelsC_eq]
    show (if skipLabels data 12 + 1 + 4 ≥ data.length then some none
        else _) = some _
    by_cases h2 : skipLabels data 12 + 1 + 4 ≥ data.length
    · rw [if_pos h2, if_pos h2]
    · rw [if_neg h2, if_neg h2,
        readC_eq data (skipLabels data 12 + 1 + 4) (by omega)]
      show (if byteAt data (skipLabels data 12 + 1 + 4) &&& 192 = 192 then
          nbstatTailC data (skipLabels data 12 + 1 + 4 + 2)
        else
          match skipLabelsC data (skipLabels data 12 + 1 + 4) with
          | none => none
          | some r => nbstatTailC data (r + 1)) = some _
      by_cases hptr : byteAt data (skipLabels data 12 + 1 + 4) &&& 192 = 192
      · rw [if_pos hptr, if_pos hptr]
        exact tailC_eq data (skipLabels data 12 + 1 + 4 + 2)
      · rw [if_neg hptr, if_neg hptr, skipLabelsC_eq]
        show nbstatTailC data
            (skipLabels data (skipLabels data 12 + 1 + 4) + 1) = some _
        exact tailC_eq data (skipLabels data (skipLabels data 12 + 1 + 4) + 1)

/-- C10: on every byte buffer — malformed, truncated or adversarial —
the bounds-checked parser completes without a fault and agrees with the
parser, so every index the source reads is within bounds; termination is
witnessed by the embedding itself, whose recursion is well-founded on the
same strictly-increasing position the source loops use. -/
theorem C10_nbstat_safety (data : List Nat) :
    parseNBSTATChecked data = some (parseNBSTATResponse data) := by
  rw [parseNBSTATChecked, parseNBSTATResponse, namesPosC_eq]
  rcases hnp : nbstatNamesPos data with _ | pn
  · rfl
  · obtain ⟨pos, num⟩ := pn
    exact entriesLoopC_eq data num pos

end Whosthere
